import Mathlib

/-!
Verification development for the CIRIquant junction classification and
annotation engine (`CIRIquant/circ.py`).

The Python source is shallowly embedded: alignment records
(`pysam.AlignedSegment`) become a Lean structure exposing exactly the
fields the code reads, dictionaries become association lists or lookup
functions, and Python integer arithmetic becomes `Nat`/`Int`/`ℚ`
arithmetic.  Each definition is translated from the corresponding source
function, keeping the source's names where Lean permits them.
-/

/-- Model of a `pysam.AlignedSegment` as read by `circ.py`: only the
fields the code accesses are kept.  `cigartuples` is the list of
(operation code, length) pairs; `get_overlap s e` models
`read.get_overlap(s, e)`, the number of aligned bases falling in the
half-open reference window `[s, e)`. -/
structure AlignedSegment where
  query_name : String
  is_unmapped : Bool
  is_supplementary : Bool
  is_read1 : Bool
  is_read2 : Bool
  cigartuples : List (Nat × Nat)
  get_overlap : Nat → Nat → Nat

/-- Model of `read.is_read1 - read.is_read2` (Python booleans subtract as
integers): `1` for a first-in-pair mate, `-1` for a second-in-pair mate,
`0` when both or neither flag is set. -/
def mateId (r : AlignedSegment) : Int :=
  (if r.is_read1 then 1 else 0) - (if r.is_read2 then 1 else 0)

/-- Translation of `is_mapped` (circ.py lines 445-462): a CIGAR end is
"mapped" when the operation is a match (code 0) or its length is at most
10.  Returns 1/0 as the source does. -/
def is_mapped (cigar_tuple : Nat × Nat) : Nat :=
  if cigar_tuple.1 = 0 ∨ cigar_tuple.2 ≤ 10 then 1 else 0

/-- Translation of `is_linear` (circ.py lines 465-482): a CIGAR end is
"linear" when the operation is a match (code 0) and its length is at
least 5.  Returns 1/0 as the source does. -/
def is_linear (cigar_tuple : Nat × Nat) : Nat :=
  if cigar_tuple.1 = 0 ∧ 5 ≤ cigar_tuple.2 then 1 else 0

/-- Model of `BedParser` (circ.py lines 18-30): one circRNA record from
the coordinate table. -/
structure BedParser where
  chr : String
  start : Nat
  «end» : Nat
  circ_id : String
  strand : String
deriving DecidableEq

/-- Membership test for the candidate map `cand_reads`
(`pair_id -> mate_id -> circ_id`), modelled as an association list of
`(pair_id, mate_id, circ_id)` entries: `pair_id in BSJ and mate_id in
BSJ[pair_id]`. -/
def candMem (cand : List (String × Int × String)) (p : String) (m : Int) : Bool :=
  cand.any (fun e => e.1 == p && e.2.1 == m)

/-- Per-record BSJ re-validation step of `genome_worker` (circ.py lines
405-419): skip unmapped records and records whose query name / mate
orientation is not a recorded BSJ candidate; flag the record as a
false-positive BSJ — returning its `(query_name, mate)` key — exactly
when both the first and the last CIGAR operation are "linear".  The
`headD`/`getLastD` defaults are irrelevant for records with a non-empty
CIGAR (the only ones the source can reach this code with). -/
def genomeBsjCheck (bsjMap : List (String × Int × String)) (r : AlignedSegment) :
    Option (String × Int) :=
  if r.is_unmapped then none
  else if !(candMem bsjMap r.query_name (mateId r)) then none
  else if decide (is_linear (r.cigartuples.headD (1, 0)) = 1)
        && decide (is_linear (r.cigartuples.getLastD (1, 0)) = 1) then
    some (r.query_name, mateId r)
  else none

/-- False-positive-BSJ list produced by `genome_worker` over the records
fetched on one contig. -/
def genomeWorkerFp (bsjMap : List (String × Int × String))
    (reads : List AlignedSegment) : List (String × Int) :=
  reads.filterMap (genomeBsjCheck bsjMap)

/-- Per-record FSJ check of `genome_worker` at a circRNA start boundary
(circ.py lines 424-430): skip unmapped or supplementary records, require
the overlap with `[start-1, start+T-1)` to equal exactly `T`, and both
CIGAR ends to be "mapped"; qualifying records are emitted as
`(query_name, mate, circ_id)`. -/
def fsjStartCheck (T : Nat) (circ : BedParser) (r : AlignedSegment) :
    Option (String × Int × String) :=
  if r.is_unmapped || r.is_supplementary then none
  else if !(r.get_overlap (circ.start - 1) (circ.start + T - 1) == T) then none
  else if decide (is_mapped (r.cigartuples.headD (1, 11)) = 1)
        && decide (is_mapped (r.cigartuples.getLastD (1, 11)) = 1) then
    some (r.query_name, mateId r, circ.circ_id)
  else none

/-- Per-record FSJ check of `genome_worker` at a circRNA end boundary
(circ.py lines 432-438): same as the start check, with the symmetric
window `[end-T, end)`. -/
def fsjEndCheck (T : Nat) (circ : BedParser) (r : AlignedSegment) :
    Option (String × Int × String) :=
  if r.is_unmapped || r.is_supplementary then none
  else if !(r.get_overlap (circ.«end» - T) circ.«end» == T) then none
  else if decide (is_mapped (r.cigartuples.headD (1, 11)) = 1)
        && decide (is_mapped (r.cigartuples.getLastD (1, 11)) = 1) then
    some (r.query_name, mateId r, circ.circ_id)
  else none

/-- Character class of the separator in the `PREFIX` pattern
`(.+)[/_-][12]` (circ.py line 15). -/
def isSepChar (c : Char) : Bool :=
  c == '/' || c == '_' || c == '-'

/-- Character class of the mate digit in the `PREFIX` pattern. -/
def isMateChar (c : Char) : Bool :=
  c == '1' || c == '2'

/-- Positions `j` of a character list at which the pattern `[/_-][12]`
matches with a non-empty prefix before it (the `(.+)` group needs at
least one character, so `j ≥ 1`).  These are exactly the positions at
which `PREFIX.search` can end its group-1 capture. -/
def prefixOccs (l : List Char) : List Nat :=
  (List.range l.length).filter
    (fun j => decide (1 ≤ j) && decide (j + 1 < l.length)
      && isSepChar (l.getD j ' ') && isMateChar (l.getD (j + 1) ' '))

/-- Semantics of `PREFIX.search(query_name)` followed by `group(1)` on a
character list: Python `re.search` is leftmost-then-greedy, so whenever
any position `j ≥ 1` carries `[/_-][12]`, the match starts at index 0
and the greedy `(.+)` extends to the largest such `j`; `group(1)` is
then the prefix of length `j`.  With no such position there is no match
and the name is returned unchanged. -/
def query_prefix_list (l : List Char) : List Char :=
  match (prefixOccs l).getLast? with
  | some j => l.take j
  | none => l

/-- Translation of `query_prefix` (circ.py lines 485-501): strip the
mate-id marker found by `PREFIX.search`, or return the name unchanged
when the pattern does not occur. -/
def query_prefix (s : String) : String :=
  String.mk (query_prefix_list s.data)

/-- Decision taken for one candidate-map entry by the BSJ aggregation
loop of `proc_genome_bam` (circ.py lines 359-363): an entry is dropped
when its `(pair_id, mate)` key is in the false-positive set, and
otherwise contributes the pair `(circ_id, query_prefix pair_id)` to
`circ_bsj`. -/
def bsjDecision (fp : List (String × Int)) (e : String × Int × String) :
    Option (String × String) :=
  if fp.contains (e.1, e.2.1) then none
  else some (e.2.2, query_prefix e.1)

/-- Confirmed-BSJ evidence pairs `(circ_id, pair_prefix)` accumulated
into `circ_bsj` by `proc_genome_bam`. -/
def circ_bsj_pairs (cand : List (String × Int × String)) (fp : List (String × Int)) :
    List (String × String) :=
  cand.filterMap (bsjDecision fp)

/-- Decision taken for one discovered FSJ entry by the FSJ aggregation
loop of `proc_genome_bam` (circ.py lines 365-369): an entry is dropped
when its `(pair_id, mate)` key is in the candidate map and is not a
false positive, and otherwise contributes `(circ_id, query_prefix
pair_id)` to `circ_fsj`. -/
def fsjDecision (cand : List (String × Int × String)) (fp : List (String × Int))
    (e : String × Int × String) : Option (String × String) :=
  if candMem cand e.1 e.2.1 && !(fp.contains (e.1, e.2.1)) then none
  else some (e.2.2, query_prefix e.1)

/-- FSJ evidence pairs `(circ_id, pair_prefix)` accumulated into
`circ_fsj` by `proc_genome_bam`. -/
def circ_fsj_pairs (cand : List (String × Int × String)) (fp : List (String × Int))
    (fsjL : List (String × Int × String)) : List (String × String) :=
  fsjL.filterMap (fsjDecision cand fp)

/-- Keys of the `circ_bsj` map: `circ_list = bsj_reads.keys()` (circ.py
line 536).  A circRNA id occurs here exactly when at least one
confirmed-BSJ pair was recorded for it. -/
def circ_list_of (bsjPairs : List (String × String)) : List String :=
  bsjPairs.map Prod.fst

/-- Row filter of `format_output` (circ.py lines 605-609): the iteration
over `circ_info` (sorted; sorting only permutes the enumeration and is
abstracted as the order of `circ_entries`) emits a row for an entry
exactly when its circ id is in `circ_list`. -/
def format_output_rows (circ_entries : List (String × String × BedParser))
    (circ_list : List String) : List (String × String × BedParser) :=
  circ_entries.filter (fun e => circ_list.contains e.2.1)

/-- Translation of the junction-ratio computation of `format_output`
(circ.py lines 613-617): `junc = 2.0 * bsj / (2.0 * bsj + fsj)` with the
`ZeroDivisionError` handler mapping a zero denominator to `0.0`.  The
counts are exact small integers, so the arithmetic is modelled in `ℚ`. -/
def junc_ratio (bsj fsj : Nat) : ℚ :=
  if 2 * (bsj : ℚ) + (fsj : ℚ) = 0 then 0
  else 2 * (bsj : ℚ) / (2 * (bsj : ℚ) + (fsj : ℚ))

/-- Model of an alignment record as read by `bam_stat`'s callbacks. -/
structure StatRead where
  is_unmapped : Bool
  mate_is_unmapped : Bool
  is_supplementary : Bool
  is_secondary : Bool

/-- Translation of `total_callback` (circ.py lines 579-583): a record
counts toward the total when it is neither supplementary nor
secondary. -/
def total_callback (r : StatRead) : Bool :=
  !r.is_supplementary && !r.is_secondary

/-- Translation of `unmapped_callback` (circ.py lines 572-576).  Python
`and` binds tighter than `or`, so the expression groups as
`is_unmapped or (mate_is_unmapped and not is_supplementary and not
is_secondary)`. -/
def unmapped_callback (r : StatRead) : Bool :=
  r.is_unmapped || (r.mate_is_unmapped && !r.is_supplementary && !r.is_secondary)

/-- Translation of `bam_stat` (circ.py lines 554-569) over the record
stream, abstracted as a list: returns `(total, total - unmapped)` where
the two counts use the two callbacks.  The subtraction is Python integer
subtraction, hence `Int`. -/
def bam_stat (reads : List StatRead) : Int × Int :=
  ((reads.countP (fun r => total_callback r) : Int),
   (reads.countP (fun r => total_callback r) : Int)
     - (reads.countP (fun r => unmapped_callback r) : Int))

/-- The grouping the specification claims for the unmapped count: records
that are unmapped or mate-unmapped, excluding supplementary and
secondary records from the whole count. -/
def claimUnmapped (r : StatRead) : Bool :=
  (r.is_unmapped || r.mate_is_unmapped) && !r.is_supplementary && !r.is_secondary

/-- Translation of the chunking computation of `proc_denovo_bam`
(circ.py line 267): `chunk_size = max(500, len(header) / threshold + 1)`
with Python 2 integer division.  Note the divisor is `threshold`, the
anchor threshold parameter, not `thread`. -/
def chunk_size (header_len threshold : Nat) : Nat :=
  max 500 (header_len / threshold + 1)

/-- Model of `GeneParser` (circ.py lines 663-685) restricted to the
fields `circRNA_attr` reads for classification: coordinates, feature
type, strand, and the `gene_id` attribute. -/
structure GeneParser where
  chrom : String
  type : String
  start : Nat
  «end» : Nat
  strand : String
  gene_id : String
deriving DecidableEq

/-- Denotation of the binned index built by `index_annotation` (circ.py
lines 688-707): bin `i` of chromosome `chrom` holds, in file order,
every retained (`gene`/`exon`) feature of that chromosome whose bin span
`[start/500, end/500]` covers `i`.  A bin key is present in the Python
dict exactly when this list is non-empty. -/
def gtfBins (fs : List GeneParser) (chrom : String) (i : Nat) : List GeneParser :=
  fs.filter (fun f => decide (f.chrom = chrom) && (f.type == "gene" || f.type == "exon")
    && decide (f.start / 500 ≤ i) && decide (i ≤ f.«end» / 500))

/-- Mutable state threaded through the scanning loop of `circRNA_attr`
(circ.py lines 718-740): the `host_gene` dict (an insertion-ordered map
keyed by `gene_id`, first writer wins), the feature types collected into
`start_element` / `end_element`, and the `single_gene` flag. -/
structure AttrState where
  host_gene : List (String × GeneParser)
  start_types : List String
  end_types : List String
  single_gene : Bool

/-- Condition under which `circRNA_attr` records a feature type into
`start_element` (circ.py line 729): the feature contains the circRNA
start coordinate and matches its strand. -/
def startCond (circ : BedParser) (e : GeneParser) : Prop :=
  e.start ≤ circ.start ∧ circ.start ≤ e.«end» ∧ e.strand = circ.strand

/-- Condition under which `circRNA_attr` records a feature type into
`end_element` (circ.py line 732): the feature contains the circRNA end
coordinate and matches its strand. -/
def endCond (circ : BedParser) (e : GeneParser) : Prop :=
  e.start ≤ circ.«end» ∧ circ.«end» ≤ e.«end» ∧ e.strand = circ.strand

/-- Condition under which `circRNA_attr` records a feature into
`host_gene` (circ.py lines 735-740, before the duplicate-id check): the
feature is a gene whose span intersects `[circ.start, circ.end]`. -/
def hostCond (circ : BedParser) (e : GeneParser) : Prop :=
  e.type = "gene" ∧ ¬(e.«end» < circ.start ∨ circ.«end» < e.start)

instance (circ : BedParser) (e : GeneParser) : Decidable (startCond circ e) := by
  unfold startCond; infer_instance

instance (circ : BedParser) (e : GeneParser) : Decidable (endCond circ e) := by
  unfold endCond; infer_instance

instance (circ : BedParser) (e : GeneParser) : Decidable (hostCond circ e) := by
  unfold hostCond; infer_instance

/-- Body of the inner `for element in gtf_index[circ.chr][x]` loop of
`circRNA_attr` (circ.py lines 727-740): record the feature type when the
feature contains the circRNA start (resp. end) on the matching strand;
then, for `gene` features overlapping the circRNA span at all, insert
the feature into `host_gene` unless its `gene_id` is already present. -/
def procElement (circ : BedParser) (st : AttrState) (e : GeneParser) : AttrState :=
  let st1 := if startCond circ e then
    { st with start_types := st.start_types ++ [e.type] } else st
  let st2 := if endCond circ e then
    { st1 with end_types := st1.end_types ++ [e.type] } else st1
  if e.type ≠ "gene" then st2
  else if e.«end» < circ.start ∨ circ.«end» < e.start then st2
  else if (st2.host_gene.lookup e.gene_id).isSome then st2
  else { st2 with host_gene := st2.host_gene ++ [(e.gene_id, e)] }

/-- Body of the outer `for x in xrange(start_div, end_div + 1)` loop of
`circRNA_attr` (circ.py lines 723-726): an absent bin (empty list)
clears `single_gene` and is skipped; a present bin has its features
scanned. -/
def procBin (fs : List GeneParser) (circ : BedParser) (st : AttrState) (i : Nat) : AttrState :=
  if gtfBins fs circ.chr i = [] then { st with single_gene := false }
  else (gtfBins fs circ.chr i).foldl (procElement circ) st

/-- The bins `xrange(start_div, end_div + 1)` scanned by `circRNA_attr`
for a circRNA. -/
def binRange (circ : BedParser) : List Nat :=
  List.range' (circ.start / 500) (circ.«end» / 500 + 1 - circ.start / 500)

/-- The state reached after the whole scanning loop of `circRNA_attr`. -/
def scanAttr (fs : List GeneParser) (circ : BedParser) : AttrState :=
  (binRange circ).foldl (procBin fs circ) ⟨[], [], [], true⟩

/-- The `circ_type` flag dict of `circRNA_attr` (circ.py lines 742-759). -/
structure CircTypeFlags where
  exon : Bool
  intron : Bool
  gene_intergenic : Bool
  antisense : Bool
  intergenic : Bool

/-- Body of the `for gene_id in host_gene` loop of `circRNA_attr`
(circ.py lines 746-757), abstracted over the two fixed boundary
conditions: a strand-matching host gene sets `exon` / `intron` /
`gene_intergenic` according to whether both boundary feature sets
contain `gene` (and both contain `exon`); an opposite-strand host gene
sets `antisense`. -/
def flagStep (circ : BedParser) (gb xb : Prop) [Decidable gb] [Decidable xb]
    (fl : CircTypeFlags) (g : String × GeneParser) : CircTypeFlags :=
  if g.2.strand = circ.strand then
    if gb then
      if xb then { fl with exon := true }
      else { fl with intron := true }
    else { fl with gene_intergenic := true }
  else { fl with antisense := true }

/-- Flag computation of `circRNA_attr` (circ.py lines 742-759): when the
scan found host genes and `single_gene` survived, the host genes are
folded through `flagStep` with the boundary conditions computed from the
collected feature types; otherwise only `intergenic` is set. -/
def circTypeFlags (circ : BedParser) (st : AttrState) : CircTypeFlags :=
  if st.host_gene ≠ [] ∧ st.single_gene = true then
    st.host_gene.foldl
      (flagStep circ ("gene" ∈ st.start_types ∧ "gene" ∈ st.end_types)
        ("exon" ∈ st.start_types ∧ "exon" ∈ st.end_types))
      ⟨false, false, false, false, false⟩
  else ⟨false, false, false, false, true⟩

/-- Precedence chain assigning `field['circ_type']` from the flags
(circ.py lines 761-771). -/
def circ_type_field (fl : CircTypeFlags) : String :=
  if fl.exon then "exon"
  else if fl.intron then "intron"
  else if fl.gene_intergenic then "intergenic"
  else if fl.antisense then "antisense"
  else "intergenic"

/-- The `circ_type` field computed by `circRNA_attr` (circ.py lines
710-771).  `none` models the `sys.exit` taken when the circRNA's contig
has no retained annotation feature at all (its key is absent from the
`defaultdict` index). -/
def circRNA_attr_type (fs : List GeneParser) (circ : BedParser) : Option String :=
  if fs.any (fun f => decide (f.chrom = circ.chr) && (f.type == "gene" || f.type == "exon")) then
    some (circ_type_field (circTypeFlags circ (scanAttr fs circ)))
  else none

/-- Specification-side predicate: some gene feature on the circRNA's
contig overlaps `[circ.start, circ.end]`. -/
def overlapsGene (fs : List GeneParser) (circ : BedParser) : Prop :=
  ∃ f ∈ fs, f.chrom = circ.chr ∧ f.type = "gene" ∧
    f.start ≤ circ.«end» ∧ circ.start ≤ f.«end»

/-- Specification-side predicate: some gene feature on the circRNA's
contig and strand overlaps `[circ.start, circ.end]`. -/
def overlapsFwdGene (fs : List GeneParser) (circ : BedParser) : Prop :=
  ∃ f ∈ fs, f.chrom = circ.chr ∧ f.type = "gene" ∧
    f.start ≤ circ.«end» ∧ circ.start ≤ f.«end» ∧ f.strand = circ.strand

/-- Specification-side predicate: the given coordinate lies within some
strand-matching feature of the given type on the circRNA's contig. -/
def coordInFeature (fs : List GeneParser) (circ : BedParser) (t : String) (pos : Nat) : Prop :=
  ∃ f ∈ fs, f.chrom = circ.chr ∧ f.type = t ∧
    f.start ≤ pos ∧ pos ≤ f.«end» ∧ f.strand = circ.strand

/-- Specification-side predicate: both the start and the end coordinate
of the circRNA lie within some strand-matching feature of type `t`. -/
def bothInFeature (fs : List GeneParser) (circ : BedParser) (t : String) : Prop :=
  coordInFeature fs circ t circ.start ∧ coordInFeature fs circ t circ.«end»

/-- Specification-side predicate: every bin in `[start/500, end/500]` is
present in the annotation index for the circRNA's contig. -/
def binsPresent (fs : List GeneParser) (circ : BedParser) : Prop :=
  ∀ i ∈ binRange circ, gtfBins fs circ.chr i ≠ []

instance (fs : List GeneParser) (circ : BedParser) : Decidable (overlapsGene fs circ) := by
  unfold overlapsGene; infer_instance

instance (fs : List GeneParser) (circ : BedParser) : Decidable (overlapsFwdGene fs circ) := by
  unfold overlapsFwdGene; infer_instance

instance (fs : List GeneParser) (circ : BedParser) (t : String) (pos : Nat) :
    Decidable (coordInFeature fs circ t pos) := by
  unfold coordInFeature; infer_instance

instance (fs : List GeneParser) (circ : BedParser) (t : String) :
    Decidable (bothInFeature fs circ t) := by
  unfold bothInFeature; infer_instance

instance (fs : List GeneParser) (circ : BedParser) : Decidable (binsPresent fs circ) := by
  unfold binsPresent; infer_instance

/-- Concrete alignment record used by the C1 witness: mapped,
first-in-pair, single 20-base match CIGAR. -/
def sampleLinearRead : AlignedSegment :=
  ⟨("q1"), false, false, true, false, [(0, 20)], fun _ _ => 0⟩

/-- Concrete record used by the C2 witness: mapped, second-in-pair, with
a 6-base overlap at both query windows and CIGAR `[(4, 3), (0, 30)]`
(3-base soft clip then 30-base match: both ends "mapped"). -/
def sampleFsjRead : AlignedSegment :=
  ⟨("q2"), false, false, false, true, [(4, 3), (0, 30)], fun _ _ => 6⟩

/-- Concrete circRNA record used by the C2 witness. -/
def sampleCirc : BedParser :=
  ⟨("chr1"), 100, 200, ("circA"), ("+")⟩

/-- Concrete annotation table used by the C4 witness: one gene and one
exon on `chr1`, strand `+`, both containing `[100, 200]`. -/
def gtfSample : List GeneParser :=
  [⟨("chr1"), ("gene"), 50, 250, ("+"), ("G1")⟩,
   ⟨("chr1"), ("exon"), 90, 210, ("+"), ("G1")⟩]

/-- Concrete circRNA used by the C4 witness. -/
def circSample : BedParser :=
  ⟨("chr1"), 100, 200, ("circA"), ("+")⟩

/-- Claim C6: for all non-negative counts, the junction ratio equals
`2*bsj / (2*bsj + fsj)` when the denominator is non-zero, equals exactly
`0` when the denominator is zero, always lies in `[0, 1]`, and is `0`
whenever `bsj = 0`. -/
theorem c6_junc_ratio_props (bsj fsj : Nat) :
    (2 * (bsj : ℚ) + (fsj : ℚ) ≠ 0 →
      junc_ratio bsj fsj = 2 * (bsj : ℚ) / (2 * (bsj : ℚ) + (fsj : ℚ))) ∧
    (2 * (bsj : ℚ) + (fsj : ℚ) = 0 → junc_ratio bsj fsj = 0) ∧
    0 ≤ junc_ratio bsj fsj ∧ junc_ratio bsj fsj ≤ 1 ∧
    (bsj = 0 → junc_ratio bsj fsj = 0) := by
  have hnn : (0 : ℚ) ≤ 2 * (bsj : ℚ) + (fsj : ℚ) := by positivity
  refine ⟨fun h => by rw [junc_ratio, if_neg h], fun h => by rw [junc_ratio, if_pos h], ?_, ?_, ?_⟩
  · rw [junc_ratio]
    split_ifs with h
    · exact le_refl 0
    · positivity
  · rw [junc_ratio]
    split_ifs with h
    · exact zero_le_one
    · have hpos : (0 : ℚ) < 2 * (bsj : ℚ) + (fsj : ℚ) := lt_of_le_of_ne hnn (Ne.symm h)
      rw [div_le_one hpos]
      have : (0 : ℚ) ≤ (fsj : ℚ) := by positivity
      linarith
  · intro h
    subst h
    rw [junc_ratio]
    split_ifs with h
    · rfl
    · simp

/-- Witness for C6 at concrete inputs: `junc_ratio 2 3 = 4/7` via the
non-zero-denominator branch, and `junc_ratio 0 0 = 0` via the
zero-denominator branch. -/
theorem c6_witness : junc_ratio 2 3 = 4 / 7 ∧ junc_ratio 0 0 = 0 := by
  constructor
  · have h := (c6_junc_ratio_props 2 3).1 (by norm_num)
    rw [h]; norm_num
  · exact (c6_junc_ratio_props 0 0).2.1 (by norm_num)

/-- Claim C8 evidence: at a header of 6000 contigs with 4 worker threads
and anchor threshold 5, the chunk size the code computes is
`max(500, 6000 / 5 + 1) = 1201`, driven by the anchor threshold, and is
not the worker-count-driven value `max(500, 6000 / 4 + 1) = 1501` the
specification describes. -/
theorem c8_chunk_size_uses_threshold :
    chunk_size 6000 5 = 1201 ∧ chunk_size 6000 5 ≠ max 500 (6000 / 4 + 1) := by
  constructor <;> decide

/-- Claim C9 counterexample: on a single record that is unmapped and
supplementary (mate mapped, not secondary), `bam_stat` reports
`mapped = -1`, while the claim's grouping — records that are unmapped or
mate-unmapped, excluding supplementary/secondary from the whole count —
would give `mapped = 0`. -/
theorem c9_counterexample :
    (bam_stat [⟨true, false, true, false⟩]).2 ≠
      (bam_stat [⟨true, false, true, false⟩]).1 -
        (([(⟨true, false, true, false⟩ : StatRead)].countP (fun r => claimUnmapped r)) : Int) := by
  decide

/-- Claim C9 amended: the total-read count is the number of records that
are neither supplementary nor secondary, and the mapped count is that
total minus the number of records that are unmapped — regardless of the
supplementary/secondary flags — or whose mate is unmapped and that are
neither supplementary nor secondary. -/
theorem c9_bam_stat_amended (reads : List StatRead) :
    (bam_stat reads).1 = (reads.countP (fun r => !r.is_supplementary && !r.is_secondary) : Int) ∧
    (bam_stat reads).2 = (bam_stat reads).1 -
      (reads.countP (fun r =>
        r.is_unmapped || (r.mate_is_unmapped && !r.is_supplementary && !r.is_secondary)) : Int) := by
  constructor <;> rfl

/-- Claim C3: a `(pair_id, mate)` key recorded in the candidate map for
circRNA `c` and not flagged false-positive contributes confirmed-BSJ
evidence for `c`, and every FSJ entry discovered under the same
`(pair_id, mate)` key is dropped by the FSJ aggregation loop, so the
read is never simultaneously BSJ- and FSJ-counted under that key. -/
theorem c3_bsj_fsj_exclusive (cand : List (String × Int × String))
    (fp : List (String × Int)) (p : String) (m : Int) (c : String)
    (h1 : (p, m, c) ∈ cand) (h2 : (p, m) ∉ fp) :
    (c, query_prefix p) ∈ circ_bsj_pairs cand fp ∧
      ∀ b : String, fsjDecision cand fp (p, m, b) = none := by
  have hfp : fp.contains (p, m) = false := by
    by_contra hcon
    rw [Bool.not_eq_false] at hcon
    exact h2 (List.elem_iff.mp hcon)
  have hcand : candMem cand p m = true := by
    rw [candMem, List.any_eq_true]
    exact ⟨(p, m, c), h1, by simp⟩
  have hcc : (candMem cand p m && !(fp.contains (p, m))) = true := by
    rw [hcand, hfp]; rfl
  constructor
  · rw [circ_bsj_pairs, List.mem_filterMap]
    refine ⟨(p, m, c), h1, ?_⟩
    show (if fp.contains (p, m) = true then none else some (c, query_prefix p)) =
      some (c, query_prefix p)
    rw [if_neg (by rw [hfp]; exact Bool.false_ne_true)]
  · intro b
    show (if (candMem cand p m && !(fp.contains (p, m))) = true then none
      else some (b, query_prefix p)) = (none : Option (String × String))
    rw [if_pos hcc]

/-- Witness for C3 at a concrete candidate map and false-positive set. -/
theorem c3_witness :
    (("circA"), query_prefix ("r7")) ∈
        circ_bsj_pairs [(("r7"), 1, ("circA"))] [(("r9"), 1)] ∧
      ∀ b : String, fsjDecision [(("r7"), 1, ("circA"))] [(("r9"), 1)] (("r7"), 1, b) = none :=
  c3_bsj_fsj_exclusive [(("r7"), 1, ("circA"))] [(("r9"), 1)] ("r7") 1 ("circA")
    (by decide) (by decide)

/-- Claim C10: the FSJ deduplication check compares only the
`(pair_id, mate)` key, so when that key is a retained BSJ candidate for
some circRNA, every discovered FSJ entry under the key — whatever
circRNA it names — is discarded: the aggregated FSJ pairs are unchanged
when all entries with that key are removed from the input. -/
theorem c10_fsj_skip_ignores_circ (cand : List (String × Int × String))
    (fp : List (String × Int)) (fsjL : List (String × Int × String))
    (p : String) (m : Int) (a : String)
    (h1 : (p, m, a) ∈ cand) (h2 : (p, m) ∉ fp) :
    circ_fsj_pairs cand fp fsjL =
      circ_fsj_pairs cand fp (fsjL.filter (fun e => !(e.1 == p && e.2.1 == m))) := by
  have hfp : fp.contains (p, m) = false := by
    by_contra hcon
    rw [Bool.not_eq_false] at hcon
    exact h2 (List.elem_iff.mp hcon)
  have hcand : candMem cand p m = true := by
    rw [candMem, List.any_eq_true]
    exact ⟨(p, m, a), h1, by simp⟩
  have hcc : (candMem cand p m && !(fp.contains (p, m))) = true := by
    rw [hcand, hfp]; rfl
  simp only [circ_fsj_pairs]
  induction fsjL with
  | nil => rfl
  | cons e es ih =>
    obtain ⟨e1, e2, e3⟩ := e
    by_cases hk : e1 = p ∧ e2 = m
    · obtain ⟨hp, hm⟩ := hk
      subst hp; subst hm
      have hnone : fsjDecision cand fp (e1, e2, e3) = none := by
        show (if (candMem cand e1 e2 && !(fp.contains (e1, e2))) = true then none
          else some (e3, query_prefix e1)) = (none : Option (String × String))
        rw [if_pos hcc]
      rw [List.filterMap_cons_none hnone, List.filter_cons_of_neg (by simp)]
      exact ih
    · have hg : (e1 == p && e2 == m) = false := by
        by_contra hcon
        rw [Bool.not_eq_false, Bool.and_eq_true, beq_iff_eq, beq_iff_eq] at hcon
        exact hk hcon
      rw [List.filter_cons_of_pos (by show (!((e1, e2, e3).1 == p && (e1, e2, e3).2.1 == m)) = true; rw [hg]; rfl)]
      rw [List.filterMap_cons, List.filterMap_cons]
      cases fsjDecision cand fp (e1, e2, e3) with
      | none => exact ih
      | some v => rw [ih]

/-- Witness for C10 at a concrete candidate map, false-positive set and
FSJ list whose sole entry names a different circRNA than the
candidate. -/
theorem c10_witness :
    circ_fsj_pairs [(("r7"), 1, ("circA"))] [] [(("r7"), 1, ("circB"))] =
      circ_fsj_pairs [(("r7"), 1, ("circA"))] []
        ([(("r7"), 1, ("circB"))].filter (fun e => !(e.1 == ("r7") && e.2.1 == (1 : Int)))) :=
  c10_fsj_skip_ignores_circ [(("r7"), 1, ("circA"))] [] [(("r7"), 1, ("circB"))]
    ("r7") 1 ("circA") (by decide) (by decide)

/-- Claim C5: every row emitted by `format_output` belongs to a circRNA
with at least one confirmed BSJ pair; a circRNA absent from the BSJ
evidence map (zero confirmed evidence) gets no row, because the row
filter keeps exactly the ids in `circ_list = bsj_reads.keys()`. -/
theorem c5_rows_have_bsj_evidence (cand : List (String × Int × String))
    (fp : List (String × Int)) (circ_entries : List (String × String × BedParser)) :
    ∀ e ∈ format_output_rows circ_entries (circ_list_of (circ_bsj_pairs cand fp)),
      ∃ pr, (e.2.1, pr) ∈ circ_bsj_pairs cand fp := by
  intro e he
  rw [format_output_rows, List.mem_filter] at he
  obtain ⟨-, hc⟩ := he
  have hmem : e.2.1 ∈ circ_list_of (circ_bsj_pairs cand fp) := List.elem_iff.mp hc
  rw [circ_list_of, List.mem_map] at hmem
  obtain ⟨pair, hpair, hfst⟩ := hmem
  exact ⟨pair.2, by rw [← hfst, Prod.mk.eta]; exact hpair⟩

/-- Witness for C5 at a concrete pipeline state with one candidate and
one coordinate-table entry. -/
theorem c5_witness :
    ∃ pr, ((("circA"), pr) ∈ circ_bsj_pairs [(("r7"), 1, ("circA"))] []) :=
  c5_rows_have_bsj_evidence [(("r7"), 1, ("circA"))] []
    [(("chr1"), ("circA"), ⟨("chr1"), 100, 200, ("circA"), ("+")⟩)]
    (("chr1"), ("circA"), ⟨("chr1"), 100, 200, ("circA"), ("+")⟩) (by decide)

/-- Claim C1: for a record that is not unmapped and whose query name and
mate orientation match a recorded BSJ candidate (and which has a CIGAR),
`genome_worker` flags it false-positive BSJ exactly when both its first
and its last CIGAR operation are a match (op code 0) of length at least
5; and any `(pair_id, mate)` key so collected into the false-positive
set is excluded from the confirmed BSJ set by the aggregation loop. -/
theorem c1_false_positive_iff_linear_ends (bsjMap : List (String × Int × String))
    (r : AlignedSegment) (_hcig : r.cigartuples ≠ [])
    (hum : r.is_unmapped = false)
    (hcand : candMem bsjMap r.query_name (mateId r) = true) :
    (genomeBsjCheck bsjMap r = some (r.query_name, mateId r) ↔
      ((r.cigartuples.headD (1, 0)).1 = 0 ∧ 5 ≤ (r.cigartuples.headD (1, 0)).2 ∧
       (r.cigartuples.getLastD (1, 0)).1 = 0 ∧ 5 ≤ (r.cigartuples.getLastD (1, 0)).2)) ∧
    ∀ (fp : List (String × Int)) (c : String), (r.query_name, mateId r) ∈ fp →
      bsjDecision fp (r.query_name, mateId r, c) = none := by
  constructor
  · rw [genomeBsjCheck, hum, if_neg Bool.false_ne_true, hcand]
    simp only [Bool.not_true, Bool.false_eq_true, if_false, is_linear]
    by_cases h1 : (r.cigartuples.headD (1, 0)).1 = 0 ∧ 5 ≤ (r.cigartuples.headD (1, 0)).2 <;>
      by_cases h2 : (r.cigartuples.getLastD (1, 0)).1 = 0 ∧ 5 ≤ (r.cigartuples.getLastD (1, 0)).2 <;>
      simp [h1, h2]
  · intro fp c hmem
    show (if fp.contains (r.query_name, mateId r) = true then none
      else some (c, query_prefix r.query_name)) = (none : Option (String × String))
    rw [if_pos (List.elem_iff.mpr hmem)]

/-- Witness for C1: on a concrete candidate map and record, the record is
flagged false-positive (its single CIGAR operation is a 20-base match),
and its key, once in the false-positive set, is dropped by the BSJ
aggregation decision. -/
theorem c1_witness :
    (genomeBsjCheck [(("q1"), 1, ("circA"))] sampleLinearRead =
        some (sampleLinearRead.query_name, mateId sampleLinearRead) ↔
      ((sampleLinearRead.cigartuples.headD (1, 0)).1 = 0 ∧
       5 ≤ (sampleLinearRead.cigartuples.headD (1, 0)).2 ∧
       (sampleLinearRead.cigartuples.getLastD (1, 0)).1 = 0 ∧
       5 ≤ (sampleLinearRead.cigartuples.getLastD (1, 0)).2)) ∧
    ∀ (fp : List (String × Int)) (c : String),
      (sampleLinearRead.query_name, mateId sampleLinearRead) ∈ fp →
        bsjDecision fp (sampleLinearRead.query_name, mateId sampleLinearRead, c) = none :=
  c1_false_positive_iff_linear_ends [(("q1"), 1, ("circA"))] sampleLinearRead
    (by decide) (by decide) (by decide)

/-- Shared shape of the two per-record FSJ checks of `genome_worker`: the
emission decision holds exactly when the record is not unmapped, not
supplementary, its overlap with the given window equals exactly `T`, and
both CIGAR ends are "mapped" (op code 0 or length at most 10). -/
theorem fsjCheckEq (r : AlignedSegment) (cid : String) (a b T : Nat) :
    (if r.is_unmapped || r.is_supplementary then none
     else if !(r.get_overlap a b == T) then none
     else if decide (is_mapped (r.cigartuples.headD (1, 11)) = 1)
           && decide (is_mapped (r.cigartuples.getLastD (1, 11)) = 1) then
       some (r.query_name, mateId r, cid)
     else none) = some (r.query_name, mateId r, cid) ↔
    (r.is_unmapped = false ∧ r.is_supplementary = false ∧ r.get_overlap a b = T ∧
     ((r.cigartuples.headD (1, 11)).1 = 0 ∨ (r.cigartuples.headD (1, 11)).2 ≤ 10) ∧
     ((r.cigartuples.getLastD (1, 11)).1 = 0 ∨ (r.cigartuples.getLastD (1, 11)).2 ≤ 10)) := by
  by_cases hu : r.is_unmapped = true
  · rw [hu, if_pos (show (true || r.is_supplementary) = true from rfl)]
    exact iff_of_false (fun h => Option.noConfusion h) (fun h => Bool.noConfusion h.1)
  · rw [Bool.not_eq_true] at hu
    rw [hu]
    by_cases hs : r.is_supplementary = true
    · rw [hs, if_pos (show (false || true) = true from rfl)]
      exact iff_of_false (fun h => Option.noConfusion h) (fun h => Bool.noConfusion h.2.1)
    · rw [Bool.not_eq_true] at hs
      rw [hs, if_neg (show ¬((false || false) = true) from fun h => Bool.noConfusion h)]
      by_cases ho : r.get_overlap a b = T
      · rw [ho]
        simp only [beq_self_eq_true, Bool.not_true]
        rw [if_neg (show ¬((false : Bool) = true) from Bool.false_ne_true)]
        by_cases h1 : (r.cigartuples.headD (1, 11)).1 = 0 ∨ (r.cigartuples.headD (1, 11)).2 ≤ 10
        · have e1 : is_mapped (r.cigartuples.headD (1, 11)) = 1 := by
            rw [is_mapped, if_pos h1]
          by_cases h2 : (r.cigartuples.getLastD (1, 11)).1 = 0 ∨
              (r.cigartuples.getLastD (1, 11)).2 ≤ 10
          · have e2 : is_mapped (r.cigartuples.getLastD (1, 11)) = 1 := by
              rw [is_mapped, if_pos h2]
            rw [e1, e2,
              if_pos (show (decide ((1 : Nat) = 1) && decide ((1 : Nat) = 1)) = true from rfl)]
            exact iff_of_true rfl ⟨trivial, trivial, trivial, h1, h2⟩
          · have e2 : is_mapped (r.cigartuples.getLastD (1, 11)) = 0 := by
              rw [is_mapped, if_neg h2]
            rw [e1, e2, if_neg (show ¬((decide ((1 : Nat) = 1) && decide ((0 : Nat) = 1)) = true)
              from fun h => Bool.noConfusion h)]
            exact iff_of_false (fun h => Option.noConfusion h) (fun h => h2 h.2.2.2.2)
        · have e1 : is_mapped (r.cigartuples.headD (1, 11)) = 0 := by
            rw [is_mapped, if_neg h1]
          rw [e1, if_neg (show ¬((decide ((0 : Nat) = 1) &&
              decide (is_mapped (r.cigartuples.getLastD (1, 11)) = 1)) = true)
            from fun h => Bool.noConfusion h)]
          exact iff_of_false (fun h => Option.noConfusion h) (fun h => h1 h.2.2.2.1)
      · have hb : (r.get_overlap a b == T) = false := beq_eq_false_iff_ne.mpr ho
        rw [hb, if_pos (show (!(false : Bool)) = true from rfl)]
        exact iff_of_false (fun h => Option.noConfusion h) (fun h => ho h.2.2.1)

/-- Claim C2: a record fetched at a circRNA boundary is emitted as FSJ
evidence `(pair_id, mate, circ_id)` exactly when it is not unmapped, not
supplementary, its overlap with the T-base window (`[start-1,
start+T-1)` at the start, `[end-T, end)` at the end) equals exactly `T`,
and each of its first and last CIGAR operations has op code 0 or length
at most 10. -/
theorem c2_fsj_emission_iff (T : Nat) (circ : BedParser) (r : AlignedSegment)
    (_hcig : r.cigartuples ≠ []) :
    (fsjStartCheck T circ r = some (r.query_name, mateId r, circ.circ_id) ↔
      (r.is_unmapped = false ∧ r.is_supplementary = false ∧
       r.get_overlap (circ.start - 1) (circ.start + T - 1) = T ∧
       ((r.cigartuples.headD (1, 11)).1 = 0 ∨ (r.cigartuples.headD (1, 11)).2 ≤ 10) ∧
       ((r.cigartuples.getLastD (1, 11)).1 = 0 ∨ (r.cigartuples.getLastD (1, 11)).2 ≤ 10))) ∧
    (fsjEndCheck T circ r = some (r.query_name, mateId r, circ.circ_id) ↔
      (r.is_unmapped = false ∧ r.is_supplementary = false ∧
       r.get_overlap (circ.«end» - T) circ.«end» = T ∧
       ((r.cigartuples.headD (1, 11)).1 = 0 ∨ (r.cigartuples.headD (1, 11)).2 ≤ 10) ∧
       ((r.cigartuples.getLastD (1, 11)).1 = 0 ∨ (r.cigartuples.getLastD (1, 11)).2 ≤ 10))) := by
  unfold fsjStartCheck fsjEndCheck
  exact ⟨fsjCheckEq r circ.circ_id (circ.start - 1) (circ.start + T - 1) T,
    fsjCheckEq r circ.circ_id (circ.«end» - T) circ.«end» T⟩

/-- Witness for C2: with threshold 6, the concrete record qualifies at
both boundaries of the concrete circRNA. -/
theorem c2_witness :
    (fsjStartCheck 6 sampleCirc sampleFsjRead =
        some (sampleFsjRead.query_name, mateId sampleFsjRead, sampleCirc.circ_id) ↔
      (sampleFsjRead.is_unmapped = false ∧ sampleFsjRead.is_supplementary = false ∧
       sampleFsjRead.get_overlap (sampleCirc.start - 1) (sampleCirc.start + 6 - 1) = 6 ∧
       ((sampleFsjRead.cigartuples.headD (1, 11)).1 = 0 ∨
         (sampleFsjRead.cigartuples.headD (1, 11)).2 ≤ 10) ∧
       ((sampleFsjRead.cigartuples.getLastD (1, 11)).1 = 0 ∨
         (sampleFsjRead.cigartuples.getLastD (1, 11)).2 ≤ 10))) ∧
    (fsjEndCheck 6 sampleCirc sampleFsjRead =
        some (sampleFsjRead.query_name, mateId sampleFsjRead, sampleCirc.circ_id) ↔
      (sampleFsjRead.is_unmapped = false ∧ sampleFsjRead.is_supplementary = false ∧
       sampleFsjRead.get_overlap (sampleCirc.«end» - 6) sampleCirc.«end» = 6 ∧
       ((sampleFsjRead.cigartuples.headD (1, 11)).1 = 0 ∨
         (sampleFsjRead.cigartuples.headD (1, 11)).2 ≤ 10) ∧
       ((sampleFsjRead.cigartuples.getLastD (1, 11)).1 = 0 ∨
         (sampleFsjRead.cigartuples.getLastD (1, 11)).2 ≤ 10))) :=
  c2_fsj_emission_iff 6 sampleCirc sampleFsjRead (by decide)

/-- Membership in `prefixOccs`: position `j` is an occurrence exactly
when it has a non-empty prefix before it, a following character, and the
separator/digit classes hold at `j` and `j + 1`. -/
theorem mem_prefixOccs {l : List Char} {j : Nat} :
    j ∈ prefixOccs l ↔
      1 ≤ j ∧ j + 1 < l.length ∧ isSepChar (l.getD j ' ') = true ∧
        isMateChar (l.getD (j + 1) ' ') = true := by
  rw [prefixOccs, List.mem_filter, List.mem_range]
  simp only [Bool.and_eq_true, decide_eq_true_eq]
  constructor
  · intro h
    tauto
  · intro h
    exact ⟨by omega, ⟨⟨h.1, h.2.1⟩, h.2.2.1⟩, h.2.2.2⟩

/-- An occurrence inside a prefix `l.take j` is an occurrence of `l`
strictly before position `j - 1`. -/
theorem prefixOccs_take {l : List Char} {j j' : Nat} (h : j' ∈ prefixOccs (l.take j)) :
    j' ∈ prefixOccs l ∧ j' + 1 < j := by
  rw [mem_prefixOccs] at h
  obtain ⟨h1, h2, h3, h4⟩ := h
  rw [List.length_take] at h2
  have hj1 : j' + 1 < j := lt_of_lt_of_le h2 (min_le_left _ _)
  have hjl : j' + 1 < l.length := lt_of_lt_of_le h2 (min_le_right _ _)
  have g1 : (l.take j).getD j' ' ' = l.getD j' ' ' := by
    unfold List.getD
    rw [List.get?_take (by omega)]
  have g2 : (l.take j).getD (j' + 1) ' ' = l.getD (j' + 1) ' ' := by
    unfold List.getD
    rw [List.get?_take hj1]
  rw [mem_prefixOccs]
  exact ⟨⟨h1, hjl, by rw [← g1]; exact h3, by rw [← g2]; exact h4⟩, hj1⟩

/-- Idempotence of the stripping function at the character-list level,
for names with at most one `[/_-][12]` occurrence. -/
theorem query_prefix_list_idem {l : List Char} (h : (prefixOccs l).length ≤ 1) :
    query_prefix_list (query_prefix_list l) = query_prefix_list l := by
  match hocc : prefixOccs l with
  | [] =>
    have e1 : query_prefix_list l = l := by
      rw [query_prefix_list, hocc]
      rfl
    rw [e1, e1]
  | [j] =>
    have e1 : query_prefix_list l = l.take j := by
      rw [query_prefix_list, hocc]
      rfl
    have e2 : prefixOccs (l.take j) = [] := by
      by_contra hne
      obtain ⟨j', hj'⟩ := List.exists_mem_of_ne_nil _ hne
      obtain ⟨hmem, hlt⟩ := prefixOccs_take hj'
      rw [hocc, List.mem_singleton] at hmem
      omega
    rw [e1, query_prefix_list, e2]
    rfl
  | j1 :: j2 :: rest =>
    rw [hocc] at h
    simp at h

/-- Claim C7 counterexample: on the read name `a_1_1` (two overlapping
separator-digit markers), one application of `query_prefix` yields `a_1`
and a second application strips further to `a`, so the function is not
idempotent as claimed. -/
theorem c7_counterexample :
    query_prefix ( query_prefix ("a_1_1")) ≠ query_prefix ("a_1_1") := by
  decide

/-- Claim C7 amended: `query_prefix` is idempotent for every read name
containing at most one position where a separator (`/`, `_`, `-`) is
immediately followed by `1` or `2` — in particular for names with a
single trailing mate marker and for names with none; a name with two or
more such positions can be stripped further by a second application. -/
theorem c7_query_prefix_amended (s : String)
    (h : (prefixOccs s.data).length ≤ 1) :
    query_prefix ( query_prefix s) = query_prefix s := by
  show String.mk (query_prefix_list (query_prefix_list s.data)) =
    String.mk (query_prefix_list s.data)
  rw [query_prefix_list_idem h]

/-- Witness for the amended C7 at the concrete names `read_1` (one
trailing marker) and `read` (no marker). -/
theorem c7_witness :
    query_prefix ( query_prefix ("read_1")) = query_prefix ("read_1") ∧
      query_prefix ( query_prefix ("read")) = query_prefix ("read") :=
  ⟨c7_query_prefix_amended ("read_1") (by decide),
   c7_query_prefix_amended ("read") (by decide)⟩

/-- Helper: a successful association-list lookup names an entry of the
list. -/
theorem lookup_some_mem {β : Type} {l : List (String × β)} {k : String} {v : β}
    (h : l.lookup k = some v) : (k, v) ∈ l := by
  induction l with
  | nil => exact absurd h (by simp [List.lookup])
  | cons a l ih =>
    rw [List.lookup] at h
    by_cases hk : (k == a.1) = true
    · rw [hk] at h
      simp only at h
      obtain ⟨a1, a2⟩ := a
      rw [beq_iff_eq] at hk
      cases hk
      cases h
      exact List.mem_cons_self _ _
    · rw [Bool.not_eq_true] at hk
      rw [hk] at h
      simp only at h
      exact List.mem_cons_of_mem _ (ih h)

/-- The element step never touches `single_gene`. -/
theorem procElement_single (circ : BedParser) (st : AttrState) (e : GeneParser) :
    (procElement circ st e).single_gene = st.single_gene := by
  simp only [procElement]
  split_ifs <;> rfl

/-- The element step appends to `start_types` exactly under `startCond`. -/
theorem procElement_start (circ : BedParser) (st : AttrState) (e : GeneParser) :
    (procElement circ st e).start_types =
      if startCond circ e then st.start_types ++ [e.type] else st.start_types := by
  simp only [procElement]
  split_ifs <;> rfl

/-- The element step appends to `end_types` exactly under `endCond`. -/
theorem procElement_end (circ : BedParser) (st : AttrState) (e : GeneParser) :
    (procElement circ st e).end_types =
      if endCond circ e then st.end_types ++ [e.type] else st.end_types := by
  simp only [procElement]
  split_ifs <;> rfl

/-- The element step appends a `host_gene` entry exactly for an
overlapping gene whose `gene_id` is not yet a key. -/
theorem procElement_host (circ : BedParser) (st : AttrState) (e : GeneParser) :
    (procElement circ st e).host_gene =
      if hostCond circ e ∧ ¬((st.host_gene.lookup e.gene_id).isSome = true) then
        st.host_gene ++ [(e.gene_id, e)]
      else st.host_gene := by
  simp only [procElement, hostCond]
  split_ifs <;> first | rfl | tauto

/-- Membership form of `procElement_start`. -/
theorem procElement_start_mem (circ : BedParser) (st : AttrState) (e : GeneParser)
    (t : String) :
    t ∈ (procElement circ st e).start_types ↔
      t ∈ st.start_types ∨ (startCond circ e ∧ e.type = t) := by
  rw [procElement_start]
  split_ifs with hc
  · rw [List.mem_append, List.mem_singleton]
    constructor
    · rintro (h | h)
      · exact Or.inl h
      · exact Or.inr ⟨hc, h.symm⟩
    · rintro (h | ⟨-, h⟩)
      · exact Or.inl h
      · exact Or.inr h.symm
  · constructor
    · exact Or.inl
    · rintro (h | ⟨h, -⟩)
      · exact h
      · exact absurd h hc

/-- Membership form of `procElement_end`. -/
theorem procElement_end_mem (circ : BedParser) (st : AttrState) (e : GeneParser)
    (t : String) :
    t ∈ (procElement circ st e).end_types ↔
      t ∈ st.end_types ∨ (endCond circ e ∧ e.type = t) := by
  rw [procElement_end]
  split_ifs with hc
  · rw [List.mem_append, List.mem_singleton]
    constructor
    · rintro (h | h)
      · exact Or.inl h
      · exact Or.inr ⟨hc, h.symm⟩
    · rintro (h | ⟨-, h⟩)
      · exact Or.inl h
      · exact Or.inr h.symm
  · constructor
    · exact Or.inl
    · rintro (h | ⟨h, -⟩)
      · exact h
      · exact absurd h hc

/-- Entries of `host_gene` survive the element step. -/
theorem procElement_host_mono (circ : BedParser) (st : AttrState) (e : GeneParser)
    {p : String × GeneParser} (h : p ∈ st.host_gene) :
    p ∈ (procElement circ st e).host_gene := by
  rw [procElement_host]
  split_ifs with hc
  · exact List.mem_append_left _ h
  · exact h

/-- Origin of `host_gene` entries after one element step. -/
theorem procElement_host_src (circ : BedParser) (st : AttrState) (e : GeneParser)
    {p : String × GeneParser} (h : p ∈ (procElement circ st e).host_gene) :
    p ∈ st.host_gene ∨ (p = (e.gene_id, e) ∧ hostCond circ e) := by
  rw [procElement_host] at h
  split_ifs at h with hc
  · rw [List.mem_append, List.mem_singleton] at h
    rcases h with h | h
    · exact Or.inl h
    · exact Or.inr ⟨h, hc.1⟩
  · exact Or.inl h

/-- A key present in `host_gene` stays present through the element step. -/
theorem procElement_lookup_mono (circ : BedParser) (st : AttrState) (e : GeneParser)
    {k : String} (h : (st.host_gene.lookup k).isSome = true) :
    (((procElement circ st e).host_gene).lookup k).isSome = true := by
  rw [procElement_host]
  split_ifs with hc
  · rw [List.lookup_append]
    cases hl : st.host_gene.lookup k with
    | none => rw [hl] at h; exact absurd h (by simp)
    | some v => rfl
  · exact h

/-- After processing an overlapping gene, its `gene_id` is a key of
`host_gene`. -/
theorem procElement_lookup_self (circ : BedParser) (st : AttrState) (e : GeneParser)
    (hc : hostCond circ e) :
    (((procElement circ st e).host_gene).lookup e.gene_id).isSome = true := by
  rw [procElement_host]
  split_ifs with h
  · rw [List.lookup_append]
    cases hl : st.host_gene.lookup e.gene_id with
    | none => simp [List.lookup]
    | some v => rfl
  · rw [not_and_or, not_not] at h
    rcases h with h | h
    · exact absurd hc h
    · exact h

/-- Folding a list of elements never touches `single_gene`. -/
theorem foldElems_single (circ : BedParser) (es : List GeneParser) :
    ∀ st : AttrState, (es.foldl (procElement circ) st).single_gene = st.single_gene := by
  induction es with
  | nil => intro st; rfl
  | cons e es ih =>
    intro st
    rw [List.foldl_cons, ih, procElement_single]

/-- Membership in `start_types` after folding a list of elements. -/
theorem foldElems_start_mem (circ : BedParser) (t : String) (es : List GeneParser) :
    ∀ st : AttrState, t ∈ (es.foldl (procElement circ) st).start_types ↔
      t ∈ st.start_types ∨ ∃ e ∈ es, startCond circ e ∧ e.type = t := by
  induction es with
  | nil => intro st; simp
  | cons e es ih =>
    intro st
    rw [List.foldl_cons, ih, procElement_start_mem]
    simp only [List.mem_cons]
    constructor
    · rintro ((h | h) | ⟨e', he', h⟩)
      · exact Or.inl h
      · exact Or.inr ⟨e, Or.inl rfl, h⟩
      · exact Or.inr ⟨e', Or.inr he', h⟩
    · rintro (h | ⟨e', (rfl | he'), h⟩)
      · exact Or.inl (Or.inl h)
      · exact Or.inl (Or.inr h)
      · exact Or.inr ⟨e', he', h⟩

/-- Membership in `end_types` after folding a list of elements. -/
theorem foldElems_end_mem (circ : BedParser) (t : String) (es : List GeneParser) :
    ∀ st : AttrState, t ∈ (es.foldl (procElement circ) st).end_types ↔
      t ∈ st.end_types ∨ ∃ e ∈ es, endCond circ e ∧ e.type = t := by
  induction es with
  | nil => intro st; simp
  | cons e es ih =>
    intro st
    rw [List.foldl_cons, ih, procElement_end_mem]
    simp only [List.mem_cons]
    constructor
    · rintro ((h | h) | ⟨e', he', h⟩)
      · exact Or.inl h
      · exact Or.inr ⟨e, Or.inl rfl, h⟩
      · exact Or.inr ⟨e', Or.inr he', h⟩
    · rintro (h | ⟨e', (rfl | he'), h⟩)
      · exact Or.inl (Or.inl h)
      · exact Or.inl (Or.inr h)
      · exact Or.inr ⟨e', he', h⟩

/-- Entries of `host_gene` survive a fold over elements. -/
theorem foldElems_host_mono (circ : BedParser) (es : List GeneParser) :
    ∀ st : AttrState, ∀ p : String × GeneParser, p ∈ st.host_gene →
      p ∈ (es.foldl (procElement circ) st).host_gene := by
  induction es with
  | nil => intro st p h; exact h
  | cons e es ih =>
    intro st p h
    rw [List.foldl_cons]
    exact ih _ p (procElement_host_mono circ st e h)

/-- Origin of `host_gene` entries after a fold over elements. -/
theorem foldElems_host_src (circ : BedParser) (es : List GeneParser) :
    ∀ st : AttrState, ∀ p : String × GeneParser,
      p ∈ (es.foldl (procElement circ) st).host_gene →
      p ∈ st.host_gene ∨ ∃ e ∈ es, p = (e.gene_id, e) ∧ hostCond circ e := by
  induction es with
  | nil => intro st p h; exact Or.inl h
  | cons e es ih =>
    intro st p h
    rw [List.foldl_cons] at h
    rcases ih _ p h with h' | ⟨e', he', h'⟩
    · rcases procElement_host_src circ st e h' with h'' | h''
      · exact Or.inl h''
      · exact Or.inr ⟨e, List.mem_cons_self e es, h''⟩
    · exact Or.inr ⟨e', List.mem_cons_of_mem _ he', h'⟩

/-- A `host_gene` key stays present through a fold over elements. -/
theorem foldElems_lookup_mono (circ : BedParser) (es : List GeneParser) :
    ∀ st : AttrState, ∀ k : String, (st.host_gene.lookup k).isSome = true →
      (((es.foldl (procElement circ) st).host_gene).lookup k).isSome = true := by
  induction es with
  | nil => intro st k h; exact h
  | cons e es ih =>
    intro st k h
    rw [List.foldl_cons]
    exact ih _ k (procElement_lookup_mono circ st e h)

/-- After folding a list containing an overlapping gene, its `gene_id`
is a key of `host_gene`. -/
theorem foldElems_lookup_of_mem (circ : BedParser) (es : List GeneParser) :
    ∀ st : AttrState, ∀ e : GeneParser, e ∈ es → hostCond circ e →
      (((es.foldl (procElement circ) st).host_gene).lookup e.gene_id).isSome = true := by
  induction es with
  | nil => intro st e h; exact absurd h (List.not_mem_nil e)
  | cons a es ih =>
    intro st e he hc
    rw [List.foldl_cons]
    rcases List.mem_cons.mp he with rfl | he'
    · exact foldElems_lookup_mono circ es _ _ (procElement_lookup_self circ st e hc)
    · exact ih _ e he' hc

/-- Value of `single_gene` after the bin loop: true exactly when it was true
before and every scanned bin is present (non-empty). -/
theorem foldBins_single (fs : List GeneParser) (circ : BedParser) (bl : List Nat) :
    ∀ st : AttrState, ((bl.foldl (procBin fs circ) st).single_gene = true) ↔
      (st.single_gene = true ∧ ∀ i ∈ bl, gtfBins fs circ.chr i ≠ []) := by
  induction bl with
  | nil => intro st; simp
  | cons i bl ih =>
    intro st
    rw [List.foldl_cons, ih]
    by_cases hb : gtfBins fs circ.chr i = []
    · rw [procBin, if_pos hb]
      constructor
      · rintro ⟨h, -⟩
        exact Bool.noConfusion h
      · rintro ⟨-, hall⟩
        exact absurd hb (hall i (List.mem_cons_self i bl))
    · rw [procBin, if_neg hb, foldElems_single]
      constructor
      · rintro ⟨h, hall⟩
        refine ⟨h, fun j hj => ?_⟩
        rcases List.mem_cons.mp hj with rfl | hj'
        · exact hb
        · exact hall j hj'
      · rintro ⟨h, hall⟩
        exact ⟨h, fun j hj => hall j (List.mem_cons_of_mem _ hj)⟩

/-- Membership in `start_types` after the bin loop. -/
theorem foldBins_start_mem (fs : List GeneParser) (circ : BedParser) (t : String)
    (bl : List Nat) :
    ∀ st : AttrState, t ∈ (bl.foldl (procBin fs circ) st).start_types ↔
      t ∈ st.start_types ∨
        ∃ i ∈ bl, ∃ e ∈ gtfBins fs circ.chr i, startCond circ e ∧ e.type = t := by
  induction bl with
  | nil => intro st; simp
  | cons i bl ih =>
    intro st
    rw [List.foldl_cons, ih]
    by_cases hb : gtfBins fs circ.chr i = []
    · rw [procBin, if_pos hb]
      constructor
      · rintro (h | ⟨j, hj, h⟩)
        · exact Or.inl h
        · exact Or.inr ⟨j, List.mem_cons_of_mem _ hj, h⟩
      · rintro (h | ⟨j, hj, h⟩)
        · exact Or.inl h
        · rcases List.mem_cons.mp hj with rfl | hj'
          · obtain ⟨e, he, -⟩ := h
            rw [hb] at he
            exact absurd he (List.not_mem_nil e)
          · exact Or.inr ⟨j, hj', h⟩
    · rw [procBin, if_neg hb, foldElems_start_mem]
      constructor
      · rintro (h | ⟨j, hj, h⟩)
        · rcases h with h | ⟨e, he, h⟩
          · exact Or.inl h
          · exact Or.inr ⟨i, List.mem_cons_self i bl, e, he, h⟩
        · exact Or.inr ⟨j, List.mem_cons_of_mem _ hj, h⟩
      · rintro (h | ⟨j, hj, h⟩)
        · exact Or.inl (Or.inl h)
        · rcases List.mem_cons.mp hj with rfl | hj'
          · exact Or.inl (Or.inr h)
          · exact Or.inr ⟨j, hj', h⟩

/-- Membership in `end_types` after the bin loop. -/
theorem foldBins_end_mem (fs : List GeneParser) (circ : BedParser) (t : String)
    (bl : List Nat) :
    ∀ st : AttrState, t ∈ (bl.foldl (procBin fs circ) st).end_types ↔
      t ∈ st.end_types ∨
        ∃ i ∈ bl, ∃ e ∈ gtfBins fs circ.chr i, endCond circ e ∧ e.type = t := by
  induction bl with
  | nil => intro st; simp
  | cons i bl ih =>
    intro st
    rw [List.foldl_cons, ih]
    by_cases hb : gtfBins fs circ.chr i = []
    · rw [procBin, if_pos hb]
      constructor
      · rintro (h | ⟨j, hj, h⟩)
        · exact Or.inl h
        · exact Or.inr ⟨j, List.mem_cons_of_mem _ hj, h⟩
      · rintro (h | ⟨j, hj, h⟩)
        · exact Or.inl h
        · rcases List.mem_cons.mp hj with rfl | hj'
          · obtain ⟨e, he, -⟩ := h
            rw [hb] at he
            exact absurd he (List.not_mem_nil e)
          · exact Or.inr ⟨j, hj', h⟩
    · rw [procBin, if_neg hb, foldElems_end_mem]
      constructor
      · rintro (h | ⟨j, hj, h⟩)
        · rcases h with h | ⟨e, he, h⟩
          · exact Or.inl h
          · exact Or.inr ⟨i, List.mem_cons_self i bl, e, he, h⟩
        · exact Or.inr ⟨j, List.mem_cons_of_mem _ hj, h⟩
      · rintro (h | ⟨j, hj, h⟩)
        · exact Or.inl (Or.inl h)
        · rcases List.mem_cons.mp hj with rfl | hj'
          · exact Or.inl (Or.inr h)
          · exact Or.inr ⟨j, hj', h⟩

/-- Origin of `host_gene` entries after the bin loop. -/
theorem foldBins_host_src (fs : List GeneParser) (circ : BedParser) (bl : List Nat) :
    ∀ st : AttrState, ∀ p : String × GeneParser,
      p ∈ (bl.foldl (procBin fs circ) st).host_gene →
      p ∈ st.host_gene ∨
        ∃ i ∈ bl, ∃ e ∈ gtfBins fs circ.chr i, p = (e.gene_id, e) ∧ hostCond circ e := by
  induction bl with
  | nil => intro st p h; exact Or.inl h
  | cons i bl ih =>
    intro st p h
    rw [List.foldl_cons] at h
    by_cases hb : gtfBins fs circ.chr i = []
    · rw [procBin, if_pos hb] at h
      rcases ih _ p h with h' | ⟨j, hj, h'⟩
      · exact Or.inl h'
      · exact Or.inr ⟨j, List.mem_cons_of_mem _ hj, h'⟩
    · rw [procBin, if_neg hb] at h
      rcases ih _ p h with h' | ⟨j, hj, h'⟩
      · rcases foldElems_host_src circ _ _ p h' with h'' | ⟨e, he, h''⟩
        · exact Or.inl h''
        · exact Or.inr ⟨i, List.mem_cons_self i bl, e, he, h''⟩
      · exact Or.inr ⟨j, List.mem_cons_of_mem _ hj, h'⟩

/-- A `host_gene` key stays present through the bin loop. -/
theorem foldBins_lookup_mono (fs : List GeneParser) (circ : BedParser) (bl : List Nat) :
    ∀ st : AttrState, ∀ k : String, (st.host_gene.lookup k).isSome = true →
      (((bl.foldl (procBin fs circ) st).host_gene).lookup k).isSome = true := by
  induction bl with
  | nil => intro st k h; exact h
  | cons i bl ih =>
    intro st k h
    rw [List.foldl_cons]
    by_cases hb : gtfBins fs circ.chr i = []
    · rw [procBin, if_pos hb]
      exact ih _ k h
    · rw [procBin, if_neg hb]
      exact ih _ k (foldElems_lookup_mono circ _ _ k h)

/-- After the bin loop, every overlapping gene found in a scanned bin
has its `gene_id` as a key of `host_gene`. -/
theorem foldBins_lookup_of_mem (fs : List GeneParser) (circ : BedParser) (bl : List Nat) :
    ∀ st : AttrState, ∀ i ∈ bl, ∀ e ∈ gtfBins fs circ.chr i, hostCond circ e →
      (((bl.foldl (procBin fs circ) st).host_gene).lookup e.gene_id).isSome = true := by
  induction bl with
  | nil => intro st i hi; exact absurd hi (List.not_mem_nil i)
  | cons j bl ih =>
    intro st i hi e he hc
    rw [List.foldl_cons]
    rcases List.mem_cons.mp hi with rfl | hi'
    · have hb : gtfBins fs circ.chr i ≠ [] := by
        intro hnil
        rw [hnil] at he
        exact List.not_mem_nil e he
      rw [procBin, if_neg hb]
      exact foldBins_lookup_mono fs circ bl _ _ (foldElems_lookup_of_mem circ _ _ e he hc)
    · exact ih _ i hi' e he hc

/-- Membership in a bin of the annotation index. -/
theorem mem_gtfBins {fs : List GeneParser} {chrom : String} {i : Nat} {e : GeneParser} :
    e ∈ gtfBins fs chrom i ↔
      e ∈ fs ∧ e.chrom = chrom ∧ (e.type = "gene" ∨ e.type = "exon") ∧
        e.start / 500 ≤ i ∧ i ≤ e.«end» / 500 := by
  rw [gtfBins, List.mem_filter]
  simp only [Bool.and_eq_true, decide_eq_true_eq, Bool.or_eq_true, beq_iff_eq]
  tauto

/-- Membership in the scanned bin range. -/
theorem mem_binRange {circ : BedParser} {i : Nat} (hse : circ.start ≤ circ.«end») :
    i ∈ binRange circ ↔ circ.start / 500 ≤ i ∧ i ≤ circ.«end» / 500 := by
  rw [binRange, List.mem_range'_1]
  have h : circ.start / 500 ≤ circ.«end» / 500 := Nat.div_le_div_right hse
  omega

/-- Any feature whose span intersects the circRNA span touches one of
the scanned bins. -/
theorem binRange_cover {circ : BedParser} {f : GeneParser}
    (hse : circ.start ≤ circ.«end») (hf : f.start ≤ f.«end»)
    (h1 : f.start ≤ circ.«end») (h2 : circ.start ≤ f.«end») :
    ∃ i ∈ binRange circ, f.start / 500 ≤ i ∧ i ≤ f.«end» / 500 := by
  have d1 : circ.start / 500 ≤ circ.«end» / 500 := Nat.div_le_div_right hse
  have d2 : f.start / 500 ≤ f.«end» / 500 := Nat.div_le_div_right hf
  have d3 : f.start / 500 ≤ circ.«end» / 500 := Nat.div_le_div_right h1
  have d4 : circ.start / 500 ≤ f.«end» / 500 := Nat.div_le_div_right h2
  refine ⟨max (f.start / 500) (circ.start / 500), (mem_binRange hse).mpr (by omega),
    by omega, by omega⟩

/-- Field equation for `flagStep`: the `exon` flag. -/
theorem flagStep_exon (circ : BedParser) (gb xb : Prop) [Decidable gb] [Decidable xb]
    (fl : CircTypeFlags) (g : String × GeneParser) :
    (flagStep circ gb xb fl g).exon =
      if g.2.strand = circ.strand ∧ gb ∧ xb then true else fl.exon := by
  unfold flagStep
  split_ifs <;> first | rfl | tauto

/-- Field equation for `flagStep`: the `intron` flag. -/
theorem flagStep_intron (circ : BedParser) (gb xb : Prop) [Decidable gb] [Decidable xb]
    (fl : CircTypeFlags) (g : String × GeneParser) :
    (flagStep circ gb xb fl g).intron =
      if g.2.strand = circ.strand ∧ gb ∧ ¬xb then true else fl.intron := by
  unfold flagStep
  split_ifs <;> first | rfl | tauto

/-- Field equation for `flagStep`: the `gene_intergenic` flag. -/
theorem flagStep_gi (circ : BedParser) (gb xb : Prop) [Decidable gb] [Decidable xb]
    (fl : CircTypeFlags) (g : String × GeneParser) :
    (flagStep circ gb xb fl g).gene_intergenic =
      if g.2.strand = circ.strand ∧ ¬gb then true else fl.gene_intergenic := by
  unfold flagStep
  split_ifs <;> first | rfl | tauto

/-- Field equation for `flagStep`: the `antisense` flag. -/
theorem flagStep_anti (circ : BedParser) (gb xb : Prop) [Decidable gb] [Decidable xb]
    (fl : CircTypeFlags) (g : String × GeneParser) :
    (flagStep circ gb xb fl g).antisense =
      if ¬(g.2.strand = circ.strand) then true else fl.antisense := by
  unfold flagStep
  split_ifs <;> rfl

/-- Field equation for `flagStep`: the `intergenic` flag is untouched. -/
theorem flagStep_inter (circ : BedParser) (gb xb : Prop) [Decidable gb] [Decidable xb]
    (fl : CircTypeFlags) (g : String × GeneParser) :
    (flagStep circ gb xb fl g).intergenic = fl.intergenic := by
  unfold flagStep
  split_ifs <;> rfl

/-- The `exon` flag after the host-gene loop. -/
theorem flagsFold_exon (circ : BedParser) (gb xb : Prop) [Decidable gb] [Decidable xb]
    (hostL : List (String × GeneParser)) :
    ∀ fl : CircTypeFlags, ((hostL.foldl (flagStep circ gb xb) fl).exon = true ↔
      fl.exon = true ∨ ((∃ g ∈ hostL, g.2.strand = circ.strand) ∧ gb ∧ xb)) := by
  induction hostL with
  | nil => intro fl; simp
  | cons g hostL ih =>
    intro fl
    rw [List.foldl_cons, ih, flagStep_exon]
    by_cases hc : g.2.strand = circ.strand ∧ gb ∧ xb
    · rw [if_pos hc]
      constructor
      · intro
        exact Or.inr ⟨⟨g, List.mem_cons_self g hostL, hc.1⟩, hc.2⟩
      · intro
        exact Or.inl rfl
    · rw [if_neg hc]
      constructor
      · rintro (h | ⟨⟨g', hg', hs⟩, hgb, hxb⟩)
        · exact Or.inl h
        · exact Or.inr ⟨⟨g', List.mem_cons_of_mem _ hg', hs⟩, hgb, hxb⟩
      · rintro (h | ⟨⟨g', hg', hs⟩, hgb, hxb⟩)
        · exact Or.inl h
        · rcases List.mem_cons.mp hg' with rfl | hg''
          · exact absurd ⟨hs, hgb, hxb⟩ hc
          · exact Or.inr ⟨⟨g', hg'', hs⟩, hgb, hxb⟩

/-- The `intron` flag after the host-gene loop. -/
theorem flagsFold_intron (circ : BedParser) (gb xb : Prop) [Decidable gb] [Decidable xb]
    (hostL : List (String × GeneParser)) :
    ∀ fl : CircTypeFlags, ((hostL.foldl (flagStep circ gb xb) fl).intron = true ↔
      fl.intron = true ∨ ((∃ g ∈ hostL, g.2.strand = circ.strand) ∧ gb ∧ ¬xb)) := by
  induction hostL with
  | nil => intro fl; simp
  | cons g hostL ih =>
    intro fl
    rw [List.foldl_cons, ih, flagStep_intron]
    by_cases hc : g.2.strand = circ.strand ∧ gb ∧ ¬xb
    · rw [if_pos hc]
      constructor
      · intro
        exact Or.inr ⟨⟨g, List.mem_cons_self g hostL, hc.1⟩, hc.2⟩
      · intro
        exact Or.inl rfl
    · rw [if_neg hc]
      constructor
      · rintro (h | ⟨⟨g', hg', hs⟩, hgb, hxb⟩)
        · exact Or.inl h
        · exact Or.inr ⟨⟨g', List.mem_cons_of_mem _ hg', hs⟩, hgb, hxb⟩
      · rintro (h | ⟨⟨g', hg', hs⟩, hgb, hxb⟩)
        · exact Or.inl h
        · rcases List.mem_cons.mp hg' with rfl | hg''
          · exact absurd ⟨hs, hgb, hxb⟩ hc
          · exact Or.inr ⟨⟨g', hg'', hs⟩, hgb, hxb⟩

/-- The `gene_intergenic` flag after the host-gene loop. -/
theorem flagsFold_gi (circ : BedParser) (gb xb : Prop) [Decidable gb] [Decidable xb]
    (hostL : List (String × GeneParser)) :
    ∀ fl : CircTypeFlags, ((hostL.foldl (flagStep circ gb xb) fl).gene_intergenic = true ↔
      fl.gene_intergenic = true ∨ ((∃ g ∈ hostL, g.2.strand = circ.strand) ∧ ¬gb)) := by
  induction hostL with
  | nil => intro fl; simp
  | cons g hostL ih =>
    intro fl
    rw [List.foldl_cons, ih, flagStep_gi]
    by_cases hc : g.2.strand = circ.strand ∧ ¬gb
    · rw [if_pos hc]
      constructor
      · intro
        exact Or.inr ⟨⟨g, List.mem_cons_self g hostL, hc.1⟩, hc.2⟩
      · intro
        exact Or.inl rfl
    · rw [if_neg hc]
      constructor
      · rintro (h | ⟨⟨g', hg', hs⟩, hgb⟩)
        · exact Or.inl h
        · exact Or.inr ⟨⟨g', List.mem_cons_of_mem _ hg', hs⟩, hgb⟩
      · rintro (h | ⟨⟨g', hg', hs⟩, hgb⟩)
        · exact Or.inl h
        · rcases List.mem_cons.mp hg' with rfl | hg''
          · exact absurd ⟨hs, hgb⟩ hc
          · exact Or.inr ⟨⟨g', hg'', hs⟩, hgb⟩

/-- The `antisense` flag after the host-gene loop. -/
theorem flagsFold_anti (circ : BedParser) (gb xb : Prop) [Decidable gb] [Decidable xb]
    (hostL : List (String × GeneParser)) :
    ∀ fl : CircTypeFlags, ((hostL.foldl (flagStep circ gb xb) fl).antisense = true ↔
      fl.antisense = true ∨ ∃ g ∈ hostL, ¬(g.2.strand = circ.strand)) := by
  induction hostL with
  | nil => intro fl; simp
  | cons g hostL ih =>
    intro fl
    rw [List.foldl_cons, ih, flagStep_anti]
    by_cases hc : ¬(g.2.strand = circ.strand)
    · rw [if_pos hc]
      constructor
      · intro
        exact Or.inr ⟨g, List.mem_cons_self g hostL, hc⟩
      · intro
        exact Or.inl rfl
    · rw [if_neg hc]
      constructor
      · rintro (h | ⟨g', hg', hs⟩)
        · exact Or.inl h
        · exact Or.inr ⟨g', List.mem_cons_of_mem _ hg', hs⟩
      · rintro (h | ⟨g', hg', hs⟩)
        · exact Or.inl h
        · rcases List.mem_cons.mp hg' with rfl | hg''
          · exact absurd hs hc
          · exact Or.inr ⟨g', hg'', hs⟩

/-- The `intergenic` flag is untouched by the host-gene loop. -/
theorem flagsFold_inter (circ : BedParser) (gb xb : Prop) [Decidable gb] [Decidable xb]
    (hostL : List (String × GeneParser)) :
    ∀ fl : CircTypeFlags, (hostL.foldl (flagStep circ gb xb) fl).intergenic = fl.intergenic := by
  induction hostL with
  | nil => intro fl; rfl
  | cons g hostL ih =>
    intro fl
    rw [List.foldl_cons, ih, flagStep_inter]

/-- Value of `single_gene` after the scan is exactly bin presence. -/
theorem scan_single (fs : List GeneParser) (circ : BedParser) :
    ((scanAttr fs circ).single_gene = true) ↔ binsPresent fs circ := by
  rw [scanAttr, foldBins_single]
  unfold binsPresent
  simp

/-- A type is collected into `start_element` exactly when the circRNA
start lies in a strand-matching feature of that type. -/
theorem scan_start_mem (fs : List GeneParser) (circ : BedParser) (t : String)
    (hse : circ.start ≤ circ.«end») (ht : t = "gene" ∨ t = "exon") :
    t ∈ (scanAttr fs circ).start_types ↔ coordInFeature fs circ t circ.start := by
  rw [scanAttr, foldBins_start_mem]
  constructor
  · rintro (h | ⟨i, hi, e, he, hcond, htype⟩)
    · exact absurd h (List.not_mem_nil t)
    · rw [mem_gtfBins] at he
      exact ⟨e, he.1, he.2.1, htype, hcond.1, hcond.2.1, hcond.2.2⟩
  · rintro ⟨f, hf, hchrom, htype, h1, h2, h3⟩
    refine Or.inr ⟨circ.start / 500, ?_, f, ?_, ⟨h1, h2, h3⟩, htype⟩
    · rw [mem_binRange hse]
      exact ⟨le_refl _, Nat.div_le_div_right hse⟩
    · rw [mem_gtfBins]
      refine ⟨hf, hchrom, ?_, Nat.div_le_div_right h1, Nat.div_le_div_right h2⟩
      rw [htype]
      exact ht

/-- A type is collected into `end_element` exactly when the circRNA end
lies in a strand-matching feature of that type. -/
theorem scan_end_mem (fs : List GeneParser) (circ : BedParser) (t : String)
    (hse : circ.start ≤ circ.«end») (ht : t = "gene" ∨ t = "exon") :
    t ∈ (scanAttr fs circ).end_types ↔ coordInFeature fs circ t circ.«end» := by
  rw [scanAttr, foldBins_end_mem]
  constructor
  · rintro (h | ⟨i, hi, e, he, hcond, htype⟩)
    · exact absurd h (List.not_mem_nil t)
    · rw [mem_gtfBins] at he
      exact ⟨e, he.1, he.2.1, htype, hcond.1, hcond.2.1, hcond.2.2⟩
  · rintro ⟨f, hf, hchrom, htype, h1, h2, h3⟩
    refine Or.inr ⟨circ.«end» / 500, ?_, f, ?_, ⟨h1, h2, h3⟩, htype⟩
    · rw [mem_binRange hse]
      exact ⟨Nat.div_le_div_right hse, le_refl _⟩
    · rw [mem_gtfBins]
      refine ⟨hf, hchrom, ?_, Nat.div_le_div_right h1, Nat.div_le_div_right h2⟩
      rw [htype]
      exact ht

/-- Set `host_gene` is non-empty after the scan exactly when some gene
feature on the contig overlaps the circRNA span. -/
theorem scan_host_ne (fs : List GeneParser) (circ : BedParser)
    (hse : circ.start ≤ circ.«end») (hwf : ∀ f ∈ fs, f.start ≤ f.«end») :
    ((scanAttr fs circ).host_gene ≠ []) ↔ overlapsGene fs circ := by
  rw [scanAttr]
  constructor
  · intro hne
    obtain ⟨p, hp⟩ := List.exists_mem_of_ne_nil _ hne
    rcases foldBins_host_src fs circ (binRange circ) _ p hp with h | ⟨i, hi, e, he, hpe, hc⟩
    · exact absurd h (List.not_mem_nil p)
    · rw [mem_gtfBins] at he
      obtain ⟨hct, hcov⟩ := hc
      exact ⟨e, he.1, he.2.1, hct, by omega, by omega⟩
  · rintro ⟨f, hf, hchrom, htype, h1, h2⟩
    have hfse := hwf f hf
    obtain ⟨i, hi, hb1, hb2⟩ := binRange_cover hse hfse h1 h2
    have hfbin : f ∈ gtfBins fs circ.chr i :=
      mem_gtfBins.mpr ⟨hf, hchrom, Or.inl htype, hb1, hb2⟩
    have hlk := foldBins_lookup_of_mem fs circ (binRange circ) ⟨[], [], [], true⟩ i hi f hfbin
      ⟨htype, by omega⟩
    intro hnil
    rw [hnil] at hlk
    simp [List.lookup] at hlk

/-- A strand-matching entry exists in `host_gene` after the scan exactly
when some strand-matching gene feature on the contig overlaps the
circRNA span (the gene_id/strand consistency hypothesis rules out
conflicting duplicate gene ids). -/
theorem scan_host_fwd (fs : List GeneParser) (circ : BedParser)
    (hse : circ.start ≤ circ.«end») (hwf : ∀ f ∈ fs, f.start ≤ f.«end»)
    (hcons : ∀ f ∈ fs, ∀ g ∈ fs, f.chrom = circ.chr → g.chrom = circ.chr →
      f.type = "gene" → g.type = "gene" → f.gene_id = g.gene_id → f.strand = g.strand) :
    (∃ p ∈ (scanAttr fs circ).host_gene, p.2.strand = circ.strand) ↔
      overlapsFwdGene fs circ := by
  rw [scanAttr]
  constructor
  · rintro ⟨p, hp, hs⟩
    rcases foldBins_host_src fs circ (binRange circ) _ p hp with h | ⟨i, hi, e, he, hpe, hc⟩
    · exact absurd h (List.not_mem_nil p)
    · rw [mem_gtfBins] at he
      rw [hpe] at hs
      obtain ⟨hct, hcov⟩ := hc
      exact ⟨e, he.1, he.2.1, hct, by omega, by omega, hs⟩
  · rintro ⟨f, hf, hchrom, htype, h1, h2, hstr⟩
    have hfse := hwf f hf
    obtain ⟨i, hi, hb1, hb2⟩ := binRange_cover hse hfse h1 h2
    have hfbin : f ∈ gtfBins fs circ.chr i :=
      mem_gtfBins.mpr ⟨hf, hchrom, Or.inl htype, hb1, hb2⟩
    have hlk := foldBins_lookup_of_mem fs circ (binRange circ) ⟨[], [], [], true⟩ i hi f hfbin
      ⟨htype, by omega⟩
    obtain ⟨v, hv⟩ := Option.isSome_iff_exists.mp hlk
    have hmem := lookup_some_mem hv
    rcases foldBins_host_src fs circ (binRange circ) _ (f.gene_id, v) hmem with
      h | ⟨i', hi', e, he, hpe, hc⟩
    · exact absurd h (List.not_mem_nil _)
    · have hid : f.gene_id = e.gene_id := congrArg Prod.fst hpe
      have hv2 : v = e := congrArg Prod.snd hpe
      rw [mem_gtfBins] at he
      have hstrand : e.strand = f.strand :=
        hcons e he.1 f hf he.2.1 hchrom hc.1 htype hid.symm
      refine ⟨(f.gene_id, v), hmem, ?_⟩
      show v.strand = circ.strand
      rw [hv2, hstrand, hstr]

/-- Both-boundaries-in-gene containment yields a strand-matching
overlapping gene. -/
theorem bothGene_fwd (fs : List GeneParser) (circ : BedParser)
    (hse : circ.start ≤ circ.«end») (h : bothInFeature fs circ ("gene")) :
    overlapsFwdGene fs circ := by
  obtain ⟨⟨f, hf, hchrom, htype, h1, h2, h3⟩, -⟩ := h
  exact ⟨f, hf, hchrom, htype, by omega, by omega, h3⟩

/-- A strand-matching overlapping gene is in particular an overlapping
gene. -/
theorem fwd_overlaps (fs : List GeneParser) (circ : BedParser)
    (h : overlapsFwdGene fs circ) : overlapsGene fs circ := by
  obtain ⟨f, hf, hchrom, htype, h1, h2, -⟩ := h
  exact ⟨f, hf, hchrom, htype, h1, h2⟩

/-- Claim C4: for a circRNA whose contig is present in the annotation
index, with well-formed features (start ≤ end) and consistent strands
per gene id, the computed `circ_type` is: `exon` when both boundaries
lie in strand-matching genes and both in strand-matching exons; else
`intron` when both boundaries lie in strand-matching genes; else, when a
strand-matching gene overlaps the span, `intergenic`; else — only
opposite-strand genes overlap — `antisense`; and `intergenic` outright
when no gene overlaps the span or some scanned bin is absent. -/
theorem c4_circ_type_classification (fs : List GeneParser) (circ : BedParser)
    (hchrom : ∃ f ∈ fs, f.chrom = circ.chr ∧ (f.type = "gene" ∨ f.type = "exon"))
    (hse : circ.start ≤ circ.«end»)
    (hwf : ∀ f ∈ fs, f.start ≤ f.«end»)
    (hcons : ∀ f ∈ fs, ∀ g ∈ fs, f.chrom = circ.chr → g.chrom = circ.chr →
      f.type = "gene" → g.type = "gene" → f.gene_id = g.gene_id → f.strand = g.strand) :
    circRNA_attr_type fs circ = some (
      if overlapsGene fs circ ∧ binsPresent fs circ then
        if bothInFeature fs circ ("gene") then
          if bothInFeature fs circ ("exon") then "exon" else "intron"
        else if overlapsFwdGene fs circ then "intergenic"
        else "antisense"
      else "intergenic") := by
  have hany : (fs.any fun f =>
      decide (f.chrom = circ.chr) && (f.type == "gene" || f.type == "exon")) = true := by
    rw [List.any_eq_true]
    obtain ⟨f, hf, h1, h2⟩ := hchrom
    refine ⟨f, hf, ?_⟩
    rcases h2 with h2 | h2 <;> simp [h1, h2]
  rw [circRNA_attr_type, if_pos hany]
  congr 1
  have hGB : ("gene" ∈ (scanAttr fs circ).start_types ∧
      "gene" ∈ (scanAttr fs circ).end_types) ↔ bothInFeature fs circ ("gene") :=
    and_congr (scan_start_mem fs circ ("gene") hse (Or.inl rfl))
      (scan_end_mem fs circ ("gene") hse (Or.inl rfl))
  have hXB : ("exon" ∈ (scanAttr fs circ).start_types ∧
      "exon" ∈ (scanAttr fs circ).end_types) ↔ bothInFeature fs circ ("exon") :=
    and_congr (scan_start_mem fs circ ("exon") hse (Or.inr rfl))
      (scan_end_mem fs circ ("exon") hse (Or.inr rfl))
  have hFwd := scan_host_fwd fs circ hse hwf hcons
  rw [circTypeFlags]
  by_cases hOB : overlapsGene fs circ ∧ binsPresent fs circ
  · rw [if_pos hOB, if_pos ⟨(scan_host_ne fs circ hse hwf).mpr hOB.1,
      (scan_single fs circ).mpr hOB.2⟩]
    by_cases hgb : bothInFeature fs circ ("gene")
    · have hfwd' : overlapsFwdGene fs circ := bothGene_fwd fs circ hse hgb
      have hmatch : ∃ p ∈ (scanAttr fs circ).host_gene, p.2.strand = circ.strand :=
        hFwd.mpr hfwd'
      rw [if_pos hgb]
      by_cases hxb : bothInFeature fs circ ("exon")
      · rw [if_pos hxb]
        have hex := (flagsFold_exon circ _ _ _ ⟨false, false, false, false, false⟩).mpr
          (Or.inr ⟨hmatch, hGB.mpr hgb, hXB.mpr hxb⟩)
        rw [circ_type_field, if_pos hex]
      · rw [if_neg hxb]
        have hex : ¬(((scanAttr fs circ).host_gene.foldl
            (flagStep circ ("gene" ∈ (scanAttr fs circ).start_types ∧
              "gene" ∈ (scanAttr fs circ).end_types)
              ("exon" ∈ (scanAttr fs circ).start_types ∧
              "exon" ∈ (scanAttr fs circ).end_types))
            ⟨false, false, false, false, false⟩).exon = true) := by
          intro h
          rcases (flagsFold_exon circ _ _ _ _).mp h with h0 | ⟨-, -, hXBt⟩
          · exact Bool.noConfusion h0
          · exact hxb (hXB.mp hXBt)
        have hin := (flagsFold_intron circ _ _ _ ⟨false, false, false, false, false⟩).mpr
          (Or.inr ⟨hmatch, hGB.mpr hgb, fun hx => hxb (hXB.mp hx)⟩)
        rw [circ_type_field, if_neg hex, if_pos hin]
    · rw [if_neg hgb]
      have hGBf : ¬("gene" ∈ (scanAttr fs circ).start_types ∧
          "gene" ∈ (scanAttr fs circ).end_types) := fun h => hgb (hGB.mp h)
      have hex : ¬(((scanAttr fs circ).host_gene.foldl
          (flagStep circ ("gene" ∈ (scanAttr fs circ).start_types ∧
            "gene" ∈ (scanAttr fs circ).end_types)
            ("exon" ∈ (scanAttr fs circ).start_types ∧
            "exon" ∈ (scanAttr fs circ).end_types))
          ⟨false, false, false, false, false⟩).exon = true) := by
        intro h
        rcases (flagsFold_exon circ _ _ _ _).mp h with h0 | ⟨-, hGBt, -⟩
        · exact Bool.noConfusion h0
        · exact hGBf hGBt
      have hin : ¬(((scanAttr fs circ).host_gene.foldl
          (flagStep circ ("gene" ∈ (scanAttr fs circ).start_types ∧
            "gene" ∈ (scanAttr fs circ).end_types)
            ("exon" ∈ (scanAttr fs circ).start_types ∧
            "exon" ∈ (scanAttr fs circ).end_types))
          ⟨false, false, false, false, false⟩).intron = true) := by
        intro h
        rcases (flagsFold_intron circ _ _ _ _).mp h with h0 | ⟨-, hGBt, -⟩
        · exact Bool.noConfusion h0
        · exact hGBf hGBt
      by_cases hfw : overlapsFwdGene fs circ
      · rw [if_pos hfw]
        have hgi := (flagsFold_gi circ
          ("gene" ∈ (scanAttr fs circ).start_types ∧
            "gene" ∈ (scanAttr fs circ).end_types)
          ("exon" ∈ (scanAttr fs circ).start_types ∧
            "exon" ∈ (scanAttr fs circ).end_types)
          (scanAttr fs circ).host_gene ⟨false, false, false, false, false⟩).mpr
          (Or.inr ⟨hFwd.mpr hfw, hGBf⟩)
        rw [circ_type_field, if_neg hex, if_neg hin, if_pos hgi]
      · rw [if_neg hfw]
        have hgi : ¬(((scanAttr fs circ).host_gene.foldl
            (flagStep circ ("gene" ∈ (scanAttr fs circ).start_types ∧
              "gene" ∈ (scanAttr fs circ).end_types)
              ("exon" ∈ (scanAttr fs circ).start_types ∧
              "exon" ∈ (scanAttr fs circ).end_types))
            ⟨false, false, false, false, false⟩).gene_intergenic = true) := by
          intro h
          rcases (flagsFold_gi circ _ _ _ _).mp h with h0 | ⟨hmatch, -⟩
          · exact Bool.noConfusion h0
          · exact hfw (hFwd.mp hmatch)
        obtain ⟨p, hp⟩ := List.exists_mem_of_ne_nil _
          ((scan_host_ne fs circ hse hwf).mpr hOB.1)
        have hanti := (flagsFold_anti circ
          ("gene" ∈ (scanAttr fs circ).start_types ∧
            "gene" ∈ (scanAttr fs circ).end_types)
          ("exon" ∈ (scanAttr fs circ).start_types ∧
            "exon" ∈ (scanAttr fs circ).end_types)
          (scanAttr fs circ).host_gene ⟨false, false, false, false, false⟩).mpr
          (Or.inr ⟨p, hp, fun hs => hfw (hFwd.mp ⟨p, hp, hs⟩)⟩)
        rw [circ_type_field, if_neg hex, if_neg hin, if_neg hgi, if_pos hanti]
  · rw [if_neg hOB]
    have hcond : ¬(((scanAttr fs circ).host_gene ≠ []) ∧
        (scanAttr fs circ).single_gene = true) := by
      rintro ⟨hne, hsg⟩
      exact hOB ⟨(scan_host_ne fs circ hse hwf).mp hne, (scan_single fs circ).mp hsg⟩
    rw [if_neg hcond]
    rfl

/-- Witness for C4: on the concrete annotation table and circRNA, the
classification chain evaluates (both boundaries inside a strand-matching
gene and a strand-matching exon, all bins present) and the code computes
the same value. -/
theorem c4_witness :
    circRNA_attr_type gtfSample circSample = some (
      if overlapsGene gtfSample circSample ∧ binsPresent gtfSample circSample then
        if bothInFeature gtfSample circSample ("gene") then
          if bothInFeature gtfSample circSample ("exon") then "exon" else "intron"
        else if overlapsFwdGene gtfSample circSample then "intergenic"
        else "antisense"
      else "intergenic") :=
  c4_circ_type_classification gtfSample circSample (by decide) (by decide) (by decide)
    (by decide)
